import Mathlib

/-!
Verification of the ShellAI repository: a shallow embedding of the
configuration store (`src/shellai/config.py`), the diagnostics collector
(`src/shellai/collect_info.py`), the index lifecycle manager and query
service (`src/shellai/ask.py`) and the `cleanup` subcommand
(`src/shellai/cli.py`), together with theorems settling the spec's claims.
-/

namespace ShellAI

/-! ## Configuration values (`src/shellai/config.py`)

A YAML-like value: scalars (string, number, boolean) and nested mappings.
Mappings are association lists in insertion order, matching Python dict
semantics (unique keys, insertion-ordered iteration).  The float
`request_timeout: 60.0` from `_get_default_config` is modelled as the
number 60: no claim depends on fractional arithmetic, only on which value
occupies a slot. -/

inductive Val where
  | str (s : String)
  | num (n : Int)
  | bool (b : Bool)
  | dict (entries : List (String × Val))

/-- Whether a value is a mapping (Python `isinstance(value, dict)`). -/
def Val.isDict : Val → Bool
  | .dict _ => true
  | _ => false

/-- First entry for a key in an association list (Python `d[key]` /
`key in d`, unique keys make first = only occurrence). -/
def lookupKey : List (String × Val) → String → Option Val
  | [], _ => none
  | (k, v) :: rest, key => if k = key then some v else lookupKey rest key

/-- Python `d[key] = v`: replace the value at an existing key in place,
or append a new entry at the end. -/
def setKey : List (String × Val) → String → Val → List (String × Val)
  | [], k, v => [(k, v)]
  | (k', v') :: rest, k, v =>
    if k' = k then (k, v) :: rest else (k', v') :: setKey rest k v

mutual

/-- The per-key decision of `ShellAIConfig._merge_config`: when both the
default value and the user value are mappings, merge recursively;
otherwise the user value replaces the default
(`config.py` lines 60-66). -/
def mergeVal : Val → Val → Val
  | Val.dict d, Val.dict u => Val.dict (mergeConfig d u)
  | _, u => u

/-- `ShellAIConfig._merge_config(default, user)`: fold the user entries
into the default mapping (`config.py` lines 60-66; `default` is mutated
in place in Python, modelled as an accumulator here). -/
def mergeConfig (d : List (String × Val)) : List (String × Val) → List (String × Val)
  | [] => d
  | (k, v) :: rest =>
    let newV :=
      match lookupKey d k with
      | some dv => mergeVal dv v
      | none => v
    mergeConfig (setKey d k newV) rest

end

/-- `ShellAIConfig.get(key_path, default)` (`config.py` lines 77-88),
with the path already split on dots and `none` standing for the caller's
default: descend through nested mappings, failing when a segment is
missing or the current value is not a mapping. -/
def configGet : Val → List String → Option Val
  | v, [] => some v
  | Val.dict d, k :: rest =>
    match lookupKey d k with
    | some v => configGet v rest
    | none => none
  | _, _ :: _ => none

/-- `ShellAIConfig.set(key_path, value)` (`config.py` lines 90-102), with
the path already split on dots (`split "."` never yields an empty list,
so the `[]` case is unreachable).  Missing intermediate keys become fresh
empty mappings; navigating through a non-mapping raises `TypeError` in
Python, modelled as `none` (the partial intermediate-dict creation Python
performs before raising is unobservable through a failed call). -/
def configSet : List (String × Val) → List String → Val → Option (List (String × Val))
  | d, [k], v => some (setKey d k v)
  | d, k :: k' :: rest, v =>
    (match lookupKey d k with
     | some (Val.dict sub) =>
       match configSet sub (k' :: rest) v with
       | some sub' => some (setKey d k (Val.dict sub'))
       | none => none
     | some _ => none
     | none =>
       match configSet [] (k' :: rest) v with
       | some sub' => some (setKey d k (Val.dict sub'))
       | none => none)
  | _, [], _ => none

/-- `ShellAIConfig._get_default_config` (`config.py` lines 30-40). -/
def defaultConfig : List (String × Val) :=
  [("ollama", Val.dict
      [("base_url", Val.str "http://localhost:11434"),
       ("default_model", Val.str "gemma2:2b"),
       ("request_timeout", Val.num 60)]),
   ("embedding", Val.dict [("model", Val.str "local:BAAI/bge-small-en")]),
   ("system_info", Val.dict
      [("output_dir", Val.str "system_info"),
       ("storage_dir", Val.str "storage")])]

/-- `ShellAIConfig._load_config` (`config.py` lines 42-58): start from the
defaults and merge the parsed user file into them; with no file (or an
unparsable one) the defaults stand.  The file argument is the parsed YAML
mapping; YAML serialization is modelled as the identity (`yaml.dump`
followed by `yaml.safe_load` round-trips mappings and scalars). -/
def loadConfig : Option (List (String × Val)) → List (String × Val)
  | some user => mergeConfig defaultConfig user
  | none => defaultConfig

/-- Keys of a mapping, pairwise distinct as booleans:
`keyMem` is Python `key in d`. -/
def keyMem (k : String) : List (String × Val) → Bool
  | [] => false
  | (k', _) :: rest => k' = k || keyMem k rest

/-- No duplicate keys at this level (Python dicts always satisfy this). -/
def nodupKeys : List (String × Val) → Bool
  | [] => true
  | (k, _) :: rest => !keyMem k rest && nodupKeys rest

mutual

/-- Well-formedness: every mapping level has pairwise-distinct keys, the
invariant every value parsed from or dumped to a Python dict satisfies. -/
def wfVal : Val → Bool
  | Val.dict d => nodupKeys d && wfEntries d
  | _ => true

def wfEntries : List (String × Val) → Bool
  | [] => true
  | (_, v) :: rest => wfVal v && wfEntries rest

end

/-! ## Diagnostics collector (`src/shellai/collect_info.py`)

The filesystem of the output directory is a partial map from filename to
file content; the behaviour of the shell is a partial map from command
string to captured standard output: `some out` models exit status zero
with stdout `out` (possibly empty), `none` models a non-zero exit, a
timeout or a spawn failure. -/

/-- Files of the output directory: filename to content. -/
def FS : Type := String → Option String

/-- Overwrite (or create) one file. -/
def writeFile (fs : FS) (name content : String) : FS :=
  fun n => if n = name then some content else fs n

/-- `SystemInfoCollector.run_command` (`collect_info.py` lines 35-49):
return captured stdout only on exit status zero; a timeout or subprocess
error yields `None` exactly like a non-zero exit. -/
def run_command (shell : String → Option String) (command : String) : Option String :=
  shell command

/-- The fixed catalog `SystemInfoCollector.commands`
(`collect_info.py` lines 22-33), in insertion order. -/
def commandCatalog : List (String × String) :=
  [("os.txt", "uname -a"),
   ("disk.txt", "df -h"),
   ("memory.txt", "free -m"),
   ("processes.txt", "ps aux --sort=-%cpu | head -20"),
   ("network.txt", "ip addr show"),
   ("uptime.txt", "uptime"),
   ("cpu.txt", "lscpu"),
   ("mount.txt", "mount"),
   ("users.txt", "who"),
   ("environment.txt", "env | sort")]

/-- Fifty `=` characters, the separator line `"=" * 50`. -/
def sepLine : String := String.mk (List.replicate 50 '=')

/-- Artifact body written by `collect_all`
(`collect_info.py` lines 63-66). -/
def artifactText (cmd out : String) : String :=
  "Command: " ++ cmd ++ "\n" ++ sepLine ++ "\n" ++ out

/-- Artifact body written by `collect_custom`
(`collect_info.py` lines 82-85). -/
def customText (cmd out : String) : String :=
  "Custom Command: " ++ cmd ++ "\n" ++ sepLine ++ "\n" ++ out

/-- The `for filename, cmd in self.commands.items()` loop of
`SystemInfoCollector.collect_all` (`collect_info.py` lines 57-71),
generalized over the catalog: run each command; on a truthy output
(Python `if output:` — not `None` and not empty) write the artifact and
record `true`, otherwise record `false` and leave the filesystem alone. -/
def collectList (shell : String → Option String) :
    List (String × String) → FS → List (String × Bool) × FS
  | [], fs => ([], fs)
  | (name, cmd) :: rest, fs =>
    match run_command shell cmd with
    | some out =>
      if out = "" then
        let r := collectList shell rest fs
        ((name, false) :: r.1, r.2)
      else
        let r := collectList shell rest (writeFile fs name (artifactText cmd out))
        ((name, true) :: r.1, r.2)
    | none =>
      let r := collectList shell rest fs
      ((name, false) :: r.1, r.2)

/-- `SystemInfoCollector.collect_all` (`collect_info.py` lines 51-73):
the loop over the fixed catalog, returning the per-artifact result
mapping and the resulting filesystem. -/
def collect_all (shell : String → Option String) (fs : FS) :
    List (String × Bool) × FS :=
  collectList shell commandCatalog fs

/-- `SystemInfoCollector.collect_custom` (`collect_info.py` lines 75-90):
same truthiness test, artifact written to `<name>.txt`. -/
def collect_custom (shell : String → Option String) (fs : FS)
    (name cmd : String) : Bool × FS :=
  match run_command shell cmd with
  | some out =>
    if out = "" then (false, fs)
    else (true, writeFile fs (name ++ ".txt") (customText cmd out))
  | none => (false, fs)

/-! ## Index lifecycle (`src/shellai/ask.py`)

The persisted index is the three companion files inside the storage
subdirectory; each is modelled as `Option Nat`, `some g` meaning the file
exists and was written by build generation `g` (the generation stamp
tracks the file-modification marker: a rebuild writes a fresh stamp).
The external RAG framework and LLM backend are oracles recorded in an
environment: whether `SimpleDirectoryReader` returns documents, whether
index construction raises, what `load_index_from_storage` does if
attempted, and whether the embedding/LLM setup succeeds. -/

/-- The storage subdirectory: presence/stamp of the three companion
files `index_store.json`, `docstore.json`, `vector_store.json`. -/
structure Storage where
  indexStore : Option Nat
  docstore : Option Nat
  vectorStore : Option Nat
deriving DecidableEq

/-- `SystemQueryEngine._storage_exists` (`ask.py` lines 114-117): all
three companion files exist. -/
def storageExists (s : Storage) : Bool :=
  s.indexStore.isSome && s.docstore.isSome && s.vectorStore.isSome

/-- What `load_index_from_storage` does when attempted: returns a
`VectorStoreIndex`, returns an index of another type, or raises. -/
inductive LoadOutcome where
  | ok
  | wrongType
  | loadError
deriving DecidableEq

/-- Behaviour of the external collaborators for one engine run. -/
structure Env where
  /-- `*.txt` files in the system-info directory (the
  `self.system_info_dir.glob("*.txt")` result). -/
  txtFiles : List String
  /-- whether `SimpleDirectoryReader(...).load_data()` is non-empty. -/
  docsNonEmpty : Bool
  /-- whether `VectorStoreIndex.from_documents` (or `persist`) raises. -/
  buildRaises : Bool
  /-- what `load_index_from_storage` does if attempted. -/
  loadOutcome : LoadOutcome
  /-- whether `resolve_embed_model` and the `Ollama` constructor succeed. -/
  llmInitOk : Bool

/-- Result of `SystemQueryEngine._create_new_index`. -/
inductive BuildResult where
  /-- an index was created and persisted, replacing the storage files. -/
  | built (s : Storage)
  /-- the method returned `None`; storage untouched. -/
  | noIndex (s : Storage)
  /-- the external framework raised; the exception propagates to the
  caller's handler, storage untouched (the raise precedes `persist`). -/
  | raised (s : Storage)
deriving DecidableEq

/-- `SystemQueryEngine._create_new_index` (`ask.py` lines 119-154):
fail with no index when the directory holds no `*.txt` file or the
reader returns no documents (nothing written in either case); otherwise
build and persist the three companion files with a fresh generation
stamp `gen`. -/
def createNewIndex (env : Env) (s : Storage) (gen : Nat) : BuildResult :=
  if env.txtFiles.isEmpty then .noIndex s
  else if !env.docsNonEmpty then .noIndex s
  else if env.buildRaises then .raised s
  else .built ⟨some gen, some gen, some gen⟩

/-- Observable outcome of `SystemQueryEngine.initialize`. -/
structure InitResult where
  /-- the returned boolean. -/
  success : Bool
  /-- whether `_create_new_index` was invoked. -/
  buildInvoked : Bool
  /-- whether the engine ended with an index bound (`Loaded`). -/
  loaded : Bool
  /-- the storage directory afterwards. -/
  storage : Storage
deriving DecidableEq

/-- The build arm shared by `initialize`'s branches (`ask.py` lines
90, 94, 97 all call `_create_new_index`; a `None` result makes
`initialize` return `False`, and a raised exception is caught by the
outer handler at lines 108-112, also returning `False`). -/
def buildPath (env : Env) (s : Storage) (gen : Nat) : InitResult :=
  match createNewIndex env s gen with
  | .built s' => ⟨true, true, true, s'⟩
  | .noIndex s' => ⟨false, true, false, s'⟩
  | .raised s' => ⟨false, true, false, s'⟩

/-- `SystemQueryEngine.initialize` (`ask.py` lines 60-112): set up the
embedding model and LLM (a failure there is caught by the outer handler:
`False`, no build attempted); if all three companion files are present,
try to load — a `VectorStoreIndex` result is kept (`Loaded`, no build),
a wrong-typed result or a load exception falls back to the build path
(the inner handler at lines 91-94 swallows the load error); with any
companion file missing, build directly.  Binding the query engine to the
resulting index (`as_query_engine`, line 103) is modelled as
succeeding. -/
def engineInit (env : Env) (s : Storage) (gen : Nat) : InitResult :=
  if !env.llmInitOk then ⟨false, false, false, s⟩
  else if storageExists s then
    match env.loadOutcome with
    | .ok => ⟨true, false, true, s⟩
    | .wrongType => buildPath env s gen
    | .loadError => buildPath env s gen
  else buildPath env s gen

/-- Observable outcome of `SystemQueryEngine.refresh_index`. -/
structure RefreshResult where
  /-- the returned boolean. -/
  success : Bool
  /-- whether `_create_new_index` was invoked. -/
  buildInvoked : Bool
  /-- the storage directory afterwards. -/
  storage : Storage
deriving DecidableEq

/-- `SystemQueryEngine.refresh_index` (`ask.py` lines 156-176):
unconditionally call `_create_new_index`; a `None` index returns
`False`; otherwise succeed only if `Settings.llm` is bound (`llmBound`),
else print and return `False` — with the new index already persisted.
A raised build exception is caught (lines 174-176) returning `False`. -/
def refresh_index (env : Env) (s : Storage) (gen : Nat) (llmBound : Bool) :
    RefreshResult :=
  match createNewIndex env s gen with
  | .built s' => if llmBound then ⟨true, true, s'⟩ else ⟨false, true, s'⟩
  | .noIndex s' => ⟨false, true, s'⟩
  | .raised s' => ⟨false, true, s'⟩

/-! ## Interactive session (`src/shellai/ask.py` lines 192-219)

Operator input is a list of lines; exhausting the list is end-of-input
(`input()` raising `EOFError`, caught: clean exit).  The function returns
the questions actually submitted to `query`, in order; totality of the
definition is the clean termination of the loop. -/

/-- The exit keywords of the session loop (`ask.py` line 202). -/
def exitWords : List String := ["exit", "quit", "q"]

/-- Python `str.lower()`, character-wise over the line (the session's
input is ASCII keywords; the ASCII case map suffices). -/
def lowercase (s : String) : String := ⟨s.data.map Char.toLower⟩

/-- Python `str.strip()`: drop whitespace from both ends. -/
def stripEnds (s : String) : String :=
  ⟨((s.data.dropWhile Char.isWhitespace).reverse.dropWhile Char.isWhitespace).reverse⟩

/-- `SystemQueryEngine.interactive_session` (`ask.py` lines 192-219):
strip each line; an exit keyword (compared lower-cased) breaks the loop,
a blank line re-prompts without querying, anything else is queried. -/
def interactiveSession : List String → List String
  | [] => []
  | line :: rest =>
    let question := stripEnds line
    if exitWords.contains (lowercase question) then []
    else if question = "" then interactiveSession rest
    else question :: interactiveSession rest

/-! ## `cleanup` subcommand (`src/shellai/cli.py` lines 157-211) -/

/-- The system-info directory as `cleanup` observes it: the top-level
`*.txt` artifacts, whether the storage subdirectory exists, and the
companion files inside it. -/
structure SysDir where
  txtFiles : List String
  storageDirPresent : Bool
  storage : Storage
deriving DecidableEq

/-- The `cleanup` command (`cli.py` lines 157-211): refuse if the
storage *directory* does not exist (line 175 tests only
`storage_path.exists()`, not the companion files); return early if there
is no `*.txt` file; without `--force` ask for confirmation and cancel on
`no`; otherwise unlink every top-level `*.txt` file, touching nothing in
the storage subdirectory.  Returns the directory afterwards and whether
the artifacts were deleted. -/
def cleanup (st : SysDir) (force confirmAnswer : Bool) : SysDir × Bool :=
  if !st.storageDirPresent then (st, false)
  else if st.txtFiles.isEmpty then (st, false)
  else if !force && !confirmAnswer then (st, false)
  else ({ st with txtFiles := [] }, true)

/-! ## Concrete inputs used by counterexamples and witnesses -/

/-- An environment in which the external collaborators all behave:
one artifact file, documents load, the build does not raise, a load
attempt would return a `VectorStoreIndex`, and LLM setup succeeds. -/
def envOk : Env :=
  { txtFiles := ["os.txt"], docsNonEmpty := true, buildRaises := false,
    loadOutcome := LoadOutcome.ok, llmInitOk := true }

/-- A storage directory holding all three companion files
(generation 0). -/
def fullStorage : Storage := ⟨some 0, some 0, some 0⟩

/-- A system-info directory whose storage subdirectory exists but holds
none of the three companion files (as the engine constructor leaves it:
`ask.py` line 58 runs `self.storage_dir.mkdir(exist_ok=True)` before any
index is built), with one text artifact present. -/
def hollowStorageDir : SysDir :=
  { txtFiles := ["os.txt"], storageDirPresent := true,
    storage := ⟨none, none, none⟩ }

/-- The on-disk configuration after `set("ollama", {})` then `save()`:
the `ollama` subtree replaced by an empty mapping. -/
def emptyOllamaSaved : List (String × Val) :=
  setKey defaultConfig "ollama" (Val.dict [])

/-- A shell in which every command exits with status zero and prints
`"ok"`. -/
def shellAllOk : String → Option String := fun _ => some "ok"

/-- An output directory with no pre-existing files. -/
def emptyFS : FS := fun _ => none

/-- The on-disk configuration after `set("ollama.default_model", "x")`
then `save()`. -/
def modelXSaved : List (String × Val) :=
  [("ollama", Val.dict
      [("base_url", Val.str "http://localhost:11434"),
       ("default_model", Val.str "x"),
       ("request_timeout", Val.num 60)]),
   ("embedding", Val.dict [("model", Val.str "local:BAAI/bge-small-en")]),
   ("system_info", Val.dict
      [("output_dir", Val.str "system_info"),
       ("storage_dir", Val.str "storage")])]

/-! ## Helper lemmas -/

theorem isEmpty_false_of_ne_nil {α : Type} {l : List α} (h : l ≠ []) :
    l.isEmpty = false := by
  cases l with
  | nil => exact absurd rfl h
  | cons a t => rfl

theorem buildPath_buildInvoked (env : Env) (s : Storage) (gen : Nat) :
    (buildPath env s gen).buildInvoked = true := by
  unfold buildPath
  cases createNewIndex env s gen <;> rfl

theorem createNewIndex_built (env : Env) (s : Storage) (gen : Nat)
    (htxt : env.txtFiles ≠ []) (hdocs : env.docsNonEmpty = true)
    (hraise : env.buildRaises = false) :
    createNewIndex env s gen = BuildResult.built ⟨some gen, some gen, some gen⟩ := by
  unfold createNewIndex
  rw [isEmpty_false_of_ne_nil htxt, hdocs, hraise]
  rfl

/-! ## Claims -/

/-- C4: for every artifact directory containing zero `.txt` files,
`build()` (`_create_new_index`) returns failure — no index — and leaves
the storage subdirectory exactly as it was, creating no companion
files. -/
theorem C4_build_empty_artifacts (env : Env) (s : Storage) (gen : Nat)
    (h : env.txtFiles = []) :
    createNewIndex env s gen = BuildResult.noIndex s := by
  unfold createNewIndex
  rw [h]
  rfl

theorem C4_build_empty_artifacts_witness :
    createNewIndex { envOk with txtFiles := [] } fullStorage 7
      = BuildResult.noIndex fullStorage :=
  C4_build_empty_artifacts { envOk with txtFiles := [] } fullStorage 7 rfl

/-- C2: with the embedding/LLM setup succeeding, `initialize()` invokes
`build()` exactly when some companion file is missing or the load
attempt does not yield a usable index (a raised load error or a
structurally mismatched index type — the spec's "structural mismatch or
load error"); when all three companion files are present and the load
succeeds, the engine reaches `Loaded` with no build and the storage
untouched; and a load error always falls back to the build path instead
of propagating (the result is an ordinary returned value, never an
exception escaping `initialize`). -/
theorem C2_initialize_build_decision (env : Env) (s : Storage) (gen : Nat)
    (hllm : env.llmInitOk = true) :
    ((engineInit env s gen).buildInvoked = true ↔
      (storageExists s = false ∨ env.loadOutcome ≠ LoadOutcome.ok)) ∧
    (storageExists s = true → env.loadOutcome = LoadOutcome.ok →
      (engineInit env s gen).loaded = true ∧
      (engineInit env s gen).buildInvoked = false ∧
      (engineInit env s gen).storage = s) ∧
    (storageExists s = true → env.loadOutcome = LoadOutcome.loadError →
      (engineInit env s gen).buildInvoked = true) := by
  unfold engineInit
  rw [hllm]
  cases hs : storageExists s with
  | false =>
    simp only [Bool.not_true, Bool.false_eq_true, if_false, if_true,
      buildPath_buildInvoked]
    simp
  | true =>
    cases ho : env.loadOutcome <;>
      simp [buildPath_buildInvoked]

theorem C2_initialize_build_decision_witness :
    (engineInit envOk fullStorage 1).loaded = true ∧
    (engineInit envOk fullStorage 1).buildInvoked = false ∧
    (engineInit envOk fullStorage 1).storage = fullStorage :=
  (C2_initialize_build_decision envOk fullStorage 1 rfl).2.1 rfl rfl

/-- C3: whenever a valid index is already loaded (all three companion
files present) and the artifact directory holds at least one `.txt`
file — and the external framework's read/build/persist succeed —
`refresh_index` re-invokes the build path and replaces all three
companion files with freshly written ones (the new generation stamp
differs from every old one); and `refresh_index` returns failure
whenever the language model has not been bound, in every environment. -/
theorem C3_refresh_rebuilds :
    (∀ (env : Env) (s : Storage) (gen : Nat) (llmBound : Bool),
      storageExists s = true → env.txtFiles ≠ [] → env.docsNonEmpty = true →
      env.buildRaises = false →
      s.indexStore ≠ some gen → s.docstore ≠ some gen →
      s.vectorStore ≠ some gen →
      (refresh_index env s gen llmBound).buildInvoked = true ∧
      (refresh_index env s gen llmBound).storage = ⟨some gen, some gen, some gen⟩ ∧
      (refresh_index env s gen llmBound).storage.indexStore ≠ s.indexStore ∧
      (refresh_index env s gen llmBound).storage.docstore ≠ s.docstore ∧
      (refresh_index env s gen llmBound).storage.vectorStore ≠ s.vectorStore) ∧
    (∀ (env : Env) (s : Storage) (gen : Nat),
      (refresh_index env s gen false).success = false) := by
  constructor
  · intro env s gen llmBound _hs htxt hdocs hraise hi hd hv
    unfold refresh_index
    rw [createNewIndex_built env s gen htxt hdocs hraise]
    cases llmBound <;>
      exact ⟨rfl, rfl, fun h => hi h.symm, fun h => hd h.symm, fun h => hv h.symm⟩
  · intro env s gen
    unfold refresh_index
    cases h : createNewIndex env s gen <;> rfl

theorem C3_refresh_rebuilds_witness :
    (refresh_index envOk fullStorage 1 true).buildInvoked = true ∧
    (refresh_index envOk fullStorage 1 true).storage = ⟨some 1, some 1, some 1⟩ ∧
    (refresh_index envOk fullStorage 1 true).storage.indexStore ≠ fullStorage.indexStore ∧
    (refresh_index envOk fullStorage 1 true).storage.docstore ≠ fullStorage.docstore ∧
    (refresh_index envOk fullStorage 1 true).storage.vectorStore ≠ fullStorage.vectorStore :=
  C3_refresh_rebuilds.1 envOk fullStorage 1 true rfl (by decide) rfl rfl
    (by decide) (by decide) (by decide)

/-- C9: when `refresh_index` fails because no language model is bound
(the build itself succeeding), the persisted index has nevertheless
already been rebuilt and replaced: the companion files carry the new
generation stamp even though the call reports failure. -/
theorem C9_refresh_failure_still_rebuilds (env : Env) (s : Storage) (gen : Nat)
    (htxt : env.txtFiles ≠ []) (hdocs : env.docsNonEmpty = true)
    (hraise : env.buildRaises = false) :
    (refresh_index env s gen false).success = false ∧
    (refresh_index env s gen false).buildInvoked = true ∧
    (refresh_index env s gen false).storage = ⟨some gen, some gen, some gen⟩ := by
  unfold refresh_index
  rw [createNewIndex_built env s gen htxt hdocs hraise]
  exact ⟨rfl, rfl, rfl⟩

theorem C9_refresh_failure_still_rebuilds_witness :
    (refresh_index envOk fullStorage 2 false).success = false ∧
    (refresh_index envOk fullStorage 2 false).buildInvoked = true ∧
    (refresh_index envOk fullStorage 2 false).storage = ⟨some 2, some 2, some 2⟩ :=
  C9_refresh_failure_still_rebuilds envOk fullStorage 2 (by decide) rfl rfl

/-- C1 as stated is false: the guard in `cleanup` tests only the
existence of the storage *directory*, not the presence of the three
companion files.  On a directory whose storage subdirectory exists but
holds no companion file (no valid persisted index), `cleanup` without
`--force` still deletes the `.txt` artifacts once the operator
confirms. -/
theorem C1_counterexample :
    storageExists hollowStorageDir.storage = false ∧
    (cleanup hollowStorageDir false true).2 = true ∧
    (cleanup hollowStorageDir false true).1.txtFiles = [] :=
  ⟨rfl, rfl, rfl⟩

/-- C1 (amended): `cleanup` refuses to delete anything when the storage
directory does not exist — the guard checks only the directory's
existence, not companion-file presence; and whenever the storage
directory is present and `--force` is given, it deletes every top-level
`.txt` artifact and leaves the storage subdirectory and its files
unchanged. -/
theorem C1_cleanup_guard (st : SysDir) (force confirmAnswer : Bool) :
    (st.storageDirPresent = false → cleanup st force confirmAnswer = (st, false)) ∧
    (st.storageDirPresent = true →
      (cleanup st true confirmAnswer).1.txtFiles = [] ∧
      (cleanup st true confirmAnswer).1.storage = st.storage ∧
      (cleanup st true confirmAnswer).1.storageDirPresent = st.storageDirPresent) := by
  constructor
  · intro h
    unfold cleanup
    rw [h]
    rfl
  · intro h
    cases htxt : st.txtFiles with
    | nil => simp [cleanup, h, htxt]
    | cons a t => simp [cleanup, h, htxt]

theorem C1_cleanup_guard_witness :
    (cleanup { hollowStorageDir with storageDirPresent := false } true true
      = ({ hollowStorageDir with storageDirPresent := false }, false)) ∧
    (cleanup hollowStorageDir true false).1.txtFiles = [] ∧
    (cleanup hollowStorageDir true false).1.storage = hollowStorageDir.storage :=
  ⟨(C1_cleanup_guard { hollowStorageDir with storageDirPresent := false } true true).1 rfl,
   ((C1_cleanup_guard hollowStorageDir true false).2 rfl).1,
   ((C1_cleanup_guard hollowStorageDir true false).2 rfl).2.1⟩

/-- C8: in the interactive session, a blank input line issues no query
and merely re-prompts; any line whose stripped, lower-cased form is
`exit`, `quit` or `q` terminates the session immediately, as does end of
input; and the input sequence `["", "exit"]` produces zero query calls
and terminates cleanly (the session function is total: every input list
yields a finite query transcript). -/
theorem C8_interactive_session :
    (∀ (line : String) (rest : List String), stripEnds line = "" →
      interactiveSession (line :: rest) = interactiveSession rest) ∧
    (∀ (line : String) (rest : List String),
      exitWords.contains (lowercase (stripEnds line)) = true →
      interactiveSession (line :: rest) = []) ∧
    interactiveSession [] = [] ∧
    (∀ rest : List String, interactiveSession ("EXIT" :: rest) = []) ∧
    (∀ rest : List String, interactiveSession ("Quit" :: rest) = []) ∧
    (∀ rest : List String, interactiveSession ("q" :: rest) = []) ∧
    interactiveSession ["", "exit"] = [] := by
  refine ⟨?_, ?_, rfl, ?_, ?_, ?_, rfl⟩
  · intro line rest h
    simp only [interactiveSession, h]
    have hc : exitWords.contains (lowercase "") = false := by decide
    rw [hc]
    simp
  · intro line rest h
    simp only [interactiveSession, h, if_true]
  · intro rest; rfl
  · intro rest; rfl
  · intro rest; rfl

theorem C8_interactive_session_witness :
    interactiveSession ("   " :: ["exit"]) = interactiveSession ["exit"] ∧
    interactiveSession ("QUIT" :: ["lost question"]) = [] :=
  ⟨C8_interactive_session.1 "   " ["exit"] (by decide),
   C8_interactive_session.2.1 "QUIT" ["lost question"] (by decide)⟩

/-! ### Collector lemmas -/

theorem writeFile_self (fs : FS) (name content : String) :
    writeFile fs name content name = some content := by
  simp [writeFile]

theorem writeFile_other (fs : FS) (name content n : String) (h : n ≠ name) :
    writeFile fs name content n = fs n := by
  simp [writeFile, h]

theorem collectList_cons_none (shell : String → Option String)
    (name cmd : String) (tl : List (String × String)) (fs : FS)
    (h : run_command shell cmd = none) :
    collectList shell ((name, cmd) :: tl) fs
      = ((name, false) :: (collectList shell tl fs).1,
         (collectList shell tl fs).2) := by
  simp only [collectList, h]

theorem collectList_cons_empty (shell : String → Option String)
    (name cmd : String) (tl : List (String × String)) (fs : FS)
    (h : run_command shell cmd = some "") :
    collectList shell ((name, cmd) :: tl) fs
      = ((name, false) :: (collectList shell tl fs).1,
         (collectList shell tl fs).2) := by
  simp only [collectList, h]
  simp

theorem collectList_cons_writes (shell : String → Option String)
    (name cmd out : String) (tl : List (String × String)) (fs : FS)
    (h : run_command shell cmd = some out) (hne : out ≠ "") :
    collectList shell ((name, cmd) :: tl) fs
      = ((name, true) ::
           (collectList shell tl (writeFile fs name (artifactText cmd out))).1,
         (collectList shell tl (writeFile fs name (artifactText cmd out))).2) := by
  simp only [collectList, h]
  simp [hne]

theorem collectList_keys (shell : String → Option String) :
    ∀ (cmds : List (String × String)) (fs : FS),
    (collectList shell cmds fs).1.map Prod.fst = cmds.map Prod.fst := by
  intro cmds
  induction cmds with
  | nil => intro fs; rfl
  | cons hd tl ih =>
    intro fs
    obtain ⟨name, cmd⟩ := hd
    cases h : run_command shell cmd with
    | none => rw [collectList_cons_none shell name cmd tl fs h]; simp [ih]
    | some out =>
      by_cases he : out = ""
      · subst he
        rw [collectList_cons_empty shell name cmd tl fs h]; simp [ih]
      · rw [collectList_cons_writes shell name cmd out tl fs h he]; simp [ih]

theorem collectList_not_mem (shell : String → Option String) :
    ∀ (cmds : List (String × String)) (fs : FS) (n : String),
    n ∉ cmds.map Prod.fst → (collectList shell cmds fs).2 n = fs n := by
  intro cmds
  induction cmds with
  | nil => intro fs n _; rfl
  | cons hd tl ih =>
    intro fs n hn
    obtain ⟨name, cmd⟩ := hd
    simp only [List.map_cons, List.mem_cons, not_or] at hn
    obtain ⟨hne, hn'⟩ := hn
    cases h : run_command shell cmd with
    | none =>
      rw [collectList_cons_none shell name cmd tl fs h]
      exact ih fs n hn'
    | some out =>
      by_cases he : out = ""
      · subst he
        rw [collectList_cons_empty shell name cmd tl fs h]
        exact ih fs n hn'
      · rw [collectList_cons_writes shell name cmd out tl fs h he]
        rw [ih _ n hn', writeFile_other _ _ _ _ hne]

theorem collectList_mem_keys (shell : String → Option String)
    (cmds : List (String × String)) (fs : FS) {n : String} {b : Bool}
    (h : (n, b) ∈ (collectList shell cmds fs).1) : n ∈ cmds.map Prod.fst := by
  rw [← collectList_keys shell cmds fs]
  exact List.mem_map_of_mem Prod.fst h

theorem collectList_true_written (shell : String → Option String) :
    ∀ (cmds : List (String × String)) (fs : FS) (n : String),
    (cmds.map Prod.fst).Nodup → (n, true) ∈ (collectList shell cmds fs).1 →
    ((collectList shell cmds fs).2 n).isSome = true := by
  intro cmds
  induction cmds with
  | nil => intro fs n _ h; simp [collectList] at h
  | cons hd tl ih =>
    intro fs n hnd hmem
    obtain ⟨name, cmd⟩ := hd
    simp only [List.map_cons, List.nodup_cons] at hnd
    obtain ⟨hnotin, hnd'⟩ := hnd
    cases h : run_command shell cmd with
    | none =>
      rw [collectList_cons_none shell name cmd tl fs h] at hmem ⊢
      simp only [List.mem_cons, Prod.mk.injEq] at hmem
      rcases hmem with ⟨-, hfalse⟩ | hmem
      · exact absurd hfalse (by simp)
      · exact ih fs n hnd' hmem
    | some out =>
      by_cases he : out = ""
      · subst he
        rw [collectList_cons_empty shell name cmd tl fs h] at hmem ⊢
        simp only [List.mem_cons, Prod.mk.injEq] at hmem
        rcases hmem with ⟨-, hfalse⟩ | hmem
        · exact absurd hfalse (by simp)
        · exact ih fs n hnd' hmem
      · rw [collectList_cons_writes shell name cmd out tl fs h he] at hmem ⊢
        simp only [List.mem_cons, Prod.mk.injEq] at hmem
        rcases hmem with ⟨rfl, -⟩ | hmem
        · rw [collectList_not_mem shell tl _ n hnotin, writeFile_self]
          rfl
        · exact ih _ n hnd' hmem

theorem collectList_false_unchanged (shell : String → Option String) :
    ∀ (cmds : List (String × String)) (fs : FS) (n : String),
    (cmds.map Prod.fst).Nodup → (n, false) ∈ (collectList shell cmds fs).1 →
    (collectList shell cmds fs).2 n = fs n := by
  intro cmds
  induction cmds with
  | nil => intro fs n _ h; simp [collectList] at h
  | cons hd tl ih =>
    intro fs n hnd hmem
    obtain ⟨name, cmd⟩ := hd
    simp only [List.map_cons, List.nodup_cons] at hnd
    obtain ⟨hnotin, hnd'⟩ := hnd
    cases h : run_command shell cmd with
    | none =>
      rw [collectList_cons_none shell name cmd tl fs h] at hmem ⊢
      simp only [List.mem_cons, Prod.mk.injEq] at hmem
      rcases hmem with ⟨rfl, -⟩ | hmem
      · exact collectList_not_mem shell tl fs n hnotin
      · exact ih fs n hnd' hmem
    | some out =>
      by_cases he : out = ""
      · subst he
        rw [collectList_cons_empty shell name cmd tl fs h] at hmem ⊢
        simp only [List.mem_cons, Prod.mk.injEq] at hmem
        rcases hmem with ⟨rfl, -⟩ | hmem
        · exact collectList_not_mem shell tl fs n hnotin
        · exact ih fs n hnd' hmem
      · rw [collectList_cons_writes shell name cmd out tl fs h he] at hmem ⊢
        simp only [List.mem_cons, Prod.mk.injEq] at hmem
        rcases hmem with ⟨-, hfalse⟩ | hmem
        · exact absurd hfalse (by simp)
        · have hkey : n ∈ tl.map Prod.fst := collectList_mem_keys shell tl _ hmem
          have hne : n ≠ name := fun heq => hnotin (heq ▸ hkey)
          rw [ih _ n hnd' hmem, writeFile_other _ _ _ _ hne]

/-- C7: on every run of `collect_all` the result mapping has exactly one
entry per catalog item (its keys are the catalog keys, in order); an
artifact file exists on disk for every entry mapped `true`; and for an
entry mapped `false` the file of that name is exactly what it was
before — nothing created, nothing deleted. -/
theorem C7_collect_all (shell : String → Option String) (fs : FS) :
    ((collect_all shell fs).1.map Prod.fst = commandCatalog.map Prod.fst) ∧
    (∀ n : String, (n, true) ∈ (collect_all shell fs).1 →
      ((collect_all shell fs).2 n).isSome = true) ∧
    (∀ n : String, (n, false) ∈ (collect_all shell fs).1 →
      (collect_all shell fs).2 n = fs n) :=
  ⟨collectList_keys shell commandCatalog fs,
   fun n h => collectList_true_written shell commandCatalog fs n (by decide) h,
   fun n h => collectList_false_unchanged shell commandCatalog fs n (by decide) h⟩

theorem C7_collect_all_witness :
    ((collect_all shellAllOk emptyFS).1.map Prod.fst
      = commandCatalog.map Prod.fst) ∧
    ((collect_all shellAllOk emptyFS).2 "os.txt").isSome = true :=
  ⟨(C7_collect_all shellAllOk emptyFS).1,
   (C7_collect_all shellAllOk emptyFS).2.1 "os.txt" (by decide)⟩

/-- C10: a command that exits with status zero but prints nothing makes
`run_command` return the empty captured output (`some ""`, not `none`),
yet `collect_custom` and the collection loop (hence `collect_all`,
which is `collectList` on the fixed catalog) record that entry as a
failure and write no artifact file, because the write branch requires a
non-empty output. -/
theorem C10_empty_output (shell : String → Option String) (fs : FS)
    (n c : String) (hout : shell c = some "") :
    run_command shell c = some "" ∧
    collect_custom shell fs n c = (false, fs) ∧
    (∀ cmds : List (String × String), (cmds.map Prod.fst).Nodup →
      (n, c) ∈ cmds →
      (n, false) ∈ (collectList shell cmds fs).1 ∧
      (collectList shell cmds fs).2 n = fs n) ∧
    ((n, c) ∈ commandCatalog →
      (n, false) ∈ (collect_all shell fs).1 ∧
      (collect_all shell fs).2 n = fs n) := by
  have hgen : ∀ cmds : List (String × String), (cmds.map Prod.fst).Nodup →
      (n, c) ∈ cmds →
      (n, false) ∈ (collectList shell cmds fs).1 ∧
      (collectList shell cmds fs).2 n = fs n := ?_
  refine ⟨hout, ?_, hgen, fun hmem => hgen commandCatalog (by decide) hmem⟩
  · simp [collect_custom, run_command, hout]
  · intro cmds
    induction cmds generalizing fs with
    | nil => intro _ h; simp at h
    | cons hd tl ih =>
      intro hnd hmem
      obtain ⟨name, cmd⟩ := hd
      simp only [List.map_cons, List.nodup_cons] at hnd
      obtain ⟨hnotin, hnd'⟩ := hnd
      rcases List.mem_cons.mp hmem with heq | hmem'
      · injection heq with h1 h2
        subst h1
        subst h2
        rw [collectList_cons_empty shell n c tl fs hout]
        exact ⟨List.mem_cons_self _ _,
          collectList_not_mem shell tl fs n hnotin⟩
      · have hkey : n ∈ tl.map Prod.fst := List.mem_map_of_mem Prod.fst hmem'
        have hne : n ≠ name := fun hEq => hnotin (hEq ▸ hkey)
        cases h : run_command shell cmd with
        | none =>
          rw [collectList_cons_none shell name cmd tl fs h]
          obtain ⟨h1, h2⟩ := ih fs hnd' hmem'
          exact ⟨List.mem_cons_of_mem _ h1, h2⟩
        | some out =>
          by_cases he : out = ""
          · subst he
            rw [collectList_cons_empty shell name cmd tl fs h]
            obtain ⟨h1, h2⟩ := ih fs hnd' hmem'
            exact ⟨List.mem_cons_of_mem _ h1, h2⟩
          · rw [collectList_cons_writes shell name cmd out tl fs h he]
            obtain ⟨h1, h2⟩ :=
              ih (writeFile fs name (artifactText cmd out)) hnd' hmem'
            exact ⟨List.mem_cons_of_mem _ h1,
              h2.trans (writeFile_other _ _ _ _ hne)⟩

theorem C10_empty_output_witness :
    run_command (fun _ => some "") "uname -a" = some "" ∧
    collect_custom (fun _ => some "") emptyFS "os" "uname -a" = (false, emptyFS) ∧
    ("os.txt", false) ∈ (collectList (fun _ => some "") commandCatalog emptyFS).1 := by
  have h := C10_empty_output (fun _ => some "") emptyFS "os.txt" "uname -a" rfl
  exact ⟨h.1, h.2.1, (h.2.2.2 (by decide)).1⟩

/-! ### Configuration lemmas -/

theorem lookupKey_setKey_self :
    ∀ (d : List (String × Val)) (k : String) (v : Val),
    lookupKey (setKey d k v) k = some v := by
  intro d k v
  induction d with
  | nil => simp [setKey, lookupKey]
  | cons hd tl ih =>
    obtain ⟨k', v'⟩ := hd
    by_cases h : k' = k
    · simp [setKey, h, lookupKey]
    · simp [setKey, h, lookupKey, ih]

theorem lookupKey_setKey_ne :
    ∀ (d : List (String × Val)) (k k2 : String) (v : Val), k ≠ k2 →
    lookupKey (setKey d k v) k2 = lookupKey d k2 := by
  intro d k k2 v hne
  induction d with
  | nil => simp [setKey, lookupKey, hne]
  | cons hd tl ih =>
    obtain ⟨k', v'⟩ := hd
    by_cases h : k' = k
    · subst h
      simp [setKey, lookupKey, hne]
    · simp [setKey, h, lookupKey, ih]

theorem mergeConfig_lookupKey_not_mem :
    ∀ (u d : List (String × Val)) (k : String), keyMem k u = false →
    lookupKey (mergeConfig d u) k = lookupKey d k := by
  intro u
  induction u with
  | nil => intro d k _; rfl
  | cons hd tl ih =>
    intro d k h
    obtain ⟨k0, v0⟩ := hd
    simp only [keyMem, Bool.or_eq_false_iff, decide_eq_false_iff_not] at h
    obtain ⟨hne, h'⟩ := h
    simp only [mergeConfig]
    rw [ih _ k h', lookupKey_setKey_ne _ _ _ _ hne]

theorem mergeConfig_lookupKey_mem :
    ∀ (u d : List (String × Val)) (k : String) (v : Val),
    nodupKeys u = true → lookupKey u k = some v →
    lookupKey (mergeConfig d u) k =
      some (match lookupKey d k with
            | some dv => mergeVal dv v
            | none => v) := by
  intro u
  induction u with
  | nil => intro d k v _ h; simp [lookupKey] at h
  | cons hd tl ih =>
    intro d k v hnd hl
    obtain ⟨k0, v0⟩ := hd
    simp only [nodupKeys, Bool.and_eq_true, Bool.not_eq_true'] at hnd
    obtain ⟨hk0, hnd'⟩ := hnd
    by_cases hkk : k0 = k
    · subst hkk
      rw [show lookupKey ((k0, v0) :: tl) k0 = some v0 by simp [lookupKey]] at hl
      obtain rfl : v0 = v := Option.some.inj hl
      simp only [mergeConfig]
      rw [mergeConfig_lookupKey_not_mem tl _ k0 hk0, lookupKey_setKey_self]
    · have hl' : lookupKey tl k = some v := by
        simpa [lookupKey, hkk] using hl
      simp only [mergeConfig]
      rw [ih _ k v hnd' hl', lookupKey_setKey_ne _ _ _ _ hkk]

theorem mergeVal_of_not_dict (dv v : Val) (h : Val.isDict v = false) :
    mergeVal dv v = v := by
  cases dv <;> cases v <;> first
    | rfl
    | exact absurd h (by simp [Val.isDict])

theorem wfEntries_lookup :
    ∀ (d : List (String × Val)) (k : String) (v : Val),
    wfEntries d = true → lookupKey d k = some v → wfVal v = true := by
  intro d
  induction d with
  | nil => intro k v _ h; simp [lookupKey] at h
  | cons hd tl ih =>
    intro k v hwf hl
    obtain ⟨k0, v0⟩ := hd
    simp only [wfEntries, Bool.and_eq_true] at hwf
    obtain ⟨hv0, htl⟩ := hwf
    by_cases h : k0 = k
    · rw [show lookupKey ((k0, v0) :: tl) k = some v0 by simp [lookupKey, h]] at hl
      obtain rfl : v0 = v := Option.some.inj hl
      exact hv0
    · simp only [lookupKey, if_neg h] at hl
      exact ih k v htl hl

theorem keyMem_setKey :
    ∀ (d : List (String × Val)) (k k2 : String) (v : Val),
    keyMem k2 (setKey d k v) = (decide (k = k2) || keyMem k2 d) := by
  intro d k k2 v
  induction d with
  | nil => simp [setKey, keyMem]
  | cons hd tl ih =>
    obtain ⟨k0, v0⟩ := hd
    by_cases h : k0 = k
    · subst h
      simp only [setKey, if_pos rfl, keyMem]
      cases hd2 : decide (k0 = k2) <;> simp [hd2]
    · simp only [setKey, if_neg h, keyMem, ih]
      cases hd2 : decide (k = k2) <;> cases hd3 : decide (k0 = k2) <;>
        simp [hd2, hd3]

theorem nodupKeys_setKey :
    ∀ (d : List (String × Val)) (k : String) (v : Val),
    nodupKeys d = true → nodupKeys (setKey d k v) = true := by
  intro d k v
  induction d with
  | nil => intro _; simp [setKey, nodupKeys, keyMem]
  | cons hd tl ih =>
    intro hnd
    obtain ⟨k0, v0⟩ := hd
    simp only [nodupKeys, Bool.and_eq_true, Bool.not_eq_true'] at hnd
    obtain ⟨hk0, hnd'⟩ := hnd
    by_cases h : k0 = k
    · subst h
      simp [setKey, nodupKeys, hk0, hnd']
    · have hne : k ≠ k0 := fun hEq => h hEq.symm
      simp [setKey, h, nodupKeys, keyMem_setKey, hne, hk0, ih hnd']

theorem wfEntries_setKey :
    ∀ (d : List (String × Val)) (k : String) (v : Val),
    wfEntries d = true → wfVal v = true → wfEntries (setKey d k v) = true := by
  intro d k v
  induction d with
  | nil => intro _ hv; simp [setKey, wfEntries, hv]
  | cons hd tl ih =>
    intro hwf hv
    obtain ⟨k0, v0⟩ := hd
    simp only [wfEntries, Bool.and_eq_true] at hwf
    obtain ⟨hv0, htl⟩ := hwf
    by_cases h : k0 = k
    · simp [setKey, h, wfEntries, hv, htl]
    · simp [setKey, h, wfEntries, hv0, ih htl hv]

theorem configSet_preserves_wf :
    ∀ (ks : List String) (d d' : List (String × Val)) (v : Val),
    wfVal (Val.dict d) = true → wfVal v = true →
    configSet d ks v = some d' → wfVal (Val.dict d') = true := by
  intro ks
  induction ks with
  | nil => intro d d' v _ _ h; exact Option.noConfusion h
  | cons k tail ih =>
    intro d d' v hwf hv hset
    simp only [wfVal, Bool.and_eq_true] at hwf
    obtain ⟨hnd, hent⟩ := hwf
    cases tail with
    | nil =>
      obtain rfl : setKey d k v = d' := Option.some.inj hset
      simp only [wfVal, Bool.and_eq_true]
      exact ⟨nodupKeys_setKey d k v hnd, wfEntries_setKey d k v hent hv⟩
    | cons k2 rest =>
      cases hdk : lookupKey d k with
      | none =>
        have hset2 : (match configSet [] (k2 :: rest) v with
            | some sub' => some (setKey d k (Val.dict sub'))
            | none => none) = some d' := by
          rw [← hset]
          simp only [configSet, hdk]
        cases hsub : configSet [] (k2 :: rest) v with
        | none => rw [hsub] at hset2; exact Option.noConfusion hset2
        | some sub' =>
          rw [hsub] at hset2
          obtain rfl : setKey d k (Val.dict sub') = d' := Option.some.inj hset2
          have hwfsub' : wfVal (Val.dict sub') = true :=
            ih [] sub' v rfl hv hsub
          simp only [wfVal, Bool.and_eq_true]
          exact ⟨nodupKeys_setKey d k _ hnd,
            wfEntries_setKey d k _ hent hwfsub'⟩
      | some w =>
        cases w with
        | dict sub =>
          have hset2 : (match configSet sub (k2 :: rest) v with
              | some sub' => some (setKey d k (Val.dict sub'))
              | none => none) = some d' := by
            rw [← hset]
            simp only [configSet, hdk]
          cases hsub : configSet sub (k2 :: rest) v with
          | none => rw [hsub] at hset2; exact Option.noConfusion hset2
          | some sub' =>
            rw [hsub] at hset2
            obtain rfl : setKey d k (Val.dict sub') = d' := Option.some.inj hset2
            have hwfsub : wfVal (Val.dict sub) = true :=
              wfEntries_lookup d k _ hent hdk
            have hwfsub' : wfVal (Val.dict sub') = true :=
              ih sub sub' v hwfsub hv hsub
            simp only [wfVal, Bool.and_eq_true]
            exact ⟨nodupKeys_setKey d k _ hnd,
              wfEntries_setKey d k _ hent hwfsub'⟩
        | str s =>
          have hset2 : (none : Option (List (String × Val))) = some d' := by
            rw [← hset]; simp only [configSet, hdk]
          exact Option.noConfusion hset2
        | num n =>
          have hset2 : (none : Option (List (String × Val))) = some d' := by
            rw [← hset]; simp only [configSet, hdk]
          exact Option.noConfusion hset2
        | bool b =>
          have hset2 : (none : Option (List (String × Val))) = some d' := by
            rw [← hset]; simp only [configSet, hdk]
          exact Option.noConfusion hset2

theorem configSet_get :
    ∀ (ks : List String) (d d' : List (String × Val)) (v : Val),
    configSet d ks v = some d' → configGet (Val.dict d') ks = some v := by
  intro ks
  induction ks with
  | nil => intro d d' v h; exact Option.noConfusion h
  | cons k tail ih =>
    intro d d' v hset
    cases tail with
    | nil =>
      obtain rfl : setKey d k v = d' := Option.some.inj hset
      simp only [configGet]
      rw [lookupKey_setKey_self]
    | cons k2 rest =>
      cases hdk : lookupKey d k with
      | none =>
        have hset2 : (match configSet [] (k2 :: rest) v with
            | some sub' => some (setKey d k (Val.dict sub'))
            | none => none) = some d' := by
          rw [← hset]
          simp only [configSet, hdk]
        cases hsub : configSet [] (k2 :: rest) v with
        | none => rw [hsub] at hset2; exact Option.noConfusion hset2
        | some sub' =>
          rw [hsub] at hset2
          obtain rfl : setKey d k (Val.dict sub') = d' := Option.some.inj hset2
          simp only [configGet]
          rw [lookupKey_setKey_self]
          exact ih [] sub' v hsub
      | some w =>
        cases w with
        | dict sub =>
          have hset2 : (match configSet sub (k2 :: rest) v with
              | some sub' => some (setKey d k (Val.dict sub'))
              | none => none) = some d' := by
            rw [← hset]
            simp only [configSet, hdk]
          cases hsub : configSet sub (k2 :: rest) v with
          | none => rw [hsub] at hset2; exact Option.noConfusion hset2
          | some sub' =>
            rw [hsub] at hset2
            obtain rfl : setKey d k (Val.dict sub') = d' := Option.some.inj hset2
            simp only [configGet]
            rw [lookupKey_setKey_self]
            exact ih sub sub' v hsub
        | str s =>
          have hset2 : (none : Option (List (String × Val))) = some d' := by
            rw [← hset]; simp only [configSet, hdk]
          exact Option.noConfusion hset2
        | num n =>
          have hset2 : (none : Option (List (String × Val))) = some d' := by
            rw [← hset]; simp only [configSet, hdk]
          exact Option.noConfusion hset2
        | bool b =>
          have hset2 : (none : Option (List (String × Val))) = some d' := by
            rw [← hset]; simp only [configSet, hdk]
          exact Option.noConfusion hset2

theorem mergeConfig_configGet :
    ∀ (tail : List String) (k : String) (d u : List (String × Val)) (v : Val),
    wfVal (Val.dict u) = true → Val.isDict v = false →
    configGet (Val.dict u) (k :: tail) = some v →
    configGet (Val.dict (mergeConfig d u)) (k :: tail) = some v := by
  intro tail
  induction tail with
  | nil =>
    intro k d u v hwf hv hg
    simp only [wfVal, Bool.and_eq_true] at hwf
    obtain ⟨hnd, -⟩ := hwf
    simp only [configGet] at hg
    cases hl : lookupKey u k with
    | none => rw [hl] at hg; exact Option.noConfusion hg
    | some w =>
      rw [hl] at hg
      have hw : w = v := Option.some.inj hg
      have hvw : Val.isDict w = false := by rw [hw]; exact hv
      simp only [configGet]
      rw [mergeConfig_lookupKey_mem u d k w hnd hl]
      cases hdk : lookupKey d k <;>
        simp [mergeVal_of_not_dict, hv, hw]
  | cons k2 rest ih =>
    intro k d u v hwf hv hg
    simp only [wfVal, Bool.and_eq_true] at hwf
    obtain ⟨hnd, hent⟩ := hwf
    simp only [configGet] at hg
    cases hl : lookupKey u k with
    | none => rw [hl] at hg; exact Option.noConfusion hg
    | some w =>
      rw [hl] at hg
      cases w with
      | dict uu =>
        have hg2 : configGet (Val.dict uu) (k2 :: rest) = some v := hg
        have hwfuu : wfVal (Val.dict uu) = true :=
          wfEntries_lookup u k _ hent hl
        simp only [configGet]
        rw [mergeConfig_lookupKey_mem u d k _ hnd hl]
        cases hdk : lookupKey d k with
        | none => exact hg2
        | some dv =>
          cases dv with
          | dict dd => exact ih k2 dd uu v hwfuu hv hg2
          | str s => exact hg2
          | num n => exact hg2
          | bool b => exact hg2
      | str s => exact Option.noConfusion hg
      | num n => exact Option.noConfusion hg
      | bool b => exact Option.noConfusion hg

/-- C5: the configuration merge is recursive per nested mapping — a key
whose user value is a leaf (non-mapping) takes the user value whether or
not the defaults hold it; a key absent from the user file keeps its
default value; a key present only in the user file is adopted; when both
sides hold mappings the merge recurses; and in particular defaults
`{a: {b: 1, c: 2}}` merged with user `{a: {b: 9}}` yields
`{a: {b: 9, c: 2}}`. -/
theorem C5_config_merge :
    (∀ (d u : List (String × Val)) (k : String) (v : Val),
      nodupKeys u = true → lookupKey u k = some v → Val.isDict v = false →
      lookupKey (mergeConfig d u) k = some v) ∧
    (∀ (d u : List (String × Val)) (k : String),
      keyMem k u = false → lookupKey (mergeConfig d u) k = lookupKey d k) ∧
    (∀ (d u : List (String × Val)) (k : String) (v : Val),
      nodupKeys u = true → lookupKey d k = none → lookupKey u k = some v →
      lookupKey (mergeConfig d u) k = some v) ∧
    (∀ (d u : List (String × Val)) (k : String) (dd uu : List (String × Val)),
      nodupKeys u = true → lookupKey d k = some (Val.dict dd) →
      lookupKey u k = some (Val.dict uu) →
      lookupKey (mergeConfig d u) k = some (Val.dict (mergeConfig dd uu))) ∧
    mergeConfig [("a", Val.dict [("b", Val.num 1), ("c", Val.num 2)])]
        [("a", Val.dict [("b", Val.num 9)])]
      = [("a", Val.dict [("b", Val.num 9), ("c", Val.num 2)])] := by
  refine ⟨?_, fun d u k h => mergeConfig_lookupKey_not_mem u d k h, ?_, ?_, rfl⟩
  · intro d u k v hnd hl hv
    rw [mergeConfig_lookupKey_mem u d k v hnd hl]
    cases hdk : lookupKey d k <;> simp [mergeVal_of_not_dict _ _ hv]
  · intro d u k v hnd hdk hl
    rw [mergeConfig_lookupKey_mem u d k v hnd hl, hdk]
  · intro d u k dd uu hnd hdk hl
    rw [mergeConfig_lookupKey_mem u d k _ hnd hl, hdk]
    rfl

theorem C5_config_merge_witness :
    lookupKey (mergeConfig [("x", Val.num 1)] [("y", Val.num 2)]) "y"
      = some (Val.num 2) :=
  C5_config_merge.2.2.1 [("x", Val.num 1)] [("y", Val.num 2)] "y"
    (Val.num 2) rfl rfl rfl

/-- C6 as universally stated is false: when the value set is itself a
mapping, reloading merges it with the defaults instead of reproducing
it.  Setting `ollama` to the empty mapping, saving and reloading yields
the full default `ollama` subtree, not the empty mapping that was
set. -/
theorem C6_counterexample :
    configSet defaultConfig ["ollama"] (Val.dict []) = some emptyOllamaSaved ∧
    configGet (Val.dict (loadConfig (some emptyOllamaSaved))) ["ollama"]
      = some (Val.dict
          [("base_url", Val.str "http://localhost:11434"),
           ("default_model", Val.str "gemma2:2b"),
           ("request_timeout", Val.num 60)]) ∧
    ¬ configGet (Val.dict (loadConfig (some emptyOllamaSaved))) ["ollama"]
        = some (Val.dict []) := by
  refine ⟨rfl, rfl, fun h => ?_⟩
  rw [show configGet (Val.dict (loadConfig (some emptyOllamaSaved))) ["ollama"]
      = some (Val.dict
          [("base_url", Val.str "http://localhost:11434"),
           ("default_model", Val.str "gemma2:2b"),
           ("request_timeout", Val.num 60)]) from rfl] at h
  have h1 := Option.some.inj h
  injection h1 with h2
  exact List.noConfusion h2

/-- C6 (amended): for every dotted key and every non-mapping value for
which `set` completes without raising (the path does not traverse a
non-mapping), `set(key, value)` followed by a successful `save()` and a
`reload()` yields `get(key)` equal to the value that was set — in
particular for `set("ollama.default_model", "x")`.  The well-formedness
hypothesis (distinct keys at every mapping level) holds of every
configuration a Python dict can represent. -/
theorem C6_set_save_reload (c c' : List (String × Val)) (ks : List String)
    (v : Val) (hwf : wfVal (Val.dict c) = true) (hv : Val.isDict v = false)
    (hset : configSet c ks v = some c') :
    configGet (Val.dict (loadConfig (some c'))) ks = some v := by
  cases ks with
  | nil => simp [configSet] at hset
  | cons k tail =>
    have hwfv : wfVal v = true := by
      cases v
      · rfl
      · rfl
      · rfl
      · exact absurd hv (by simp [Val.isDict])
    have hwf' := configSet_preserves_wf (k :: tail) c c' v hwf hwfv hset
    have hget := configSet_get (k :: tail) c c' v hset
    show configGet (Val.dict (mergeConfig defaultConfig c')) (k :: tail) = some v
    exact mergeConfig_configGet tail k defaultConfig c' v hwf' hv hget

theorem C6_set_save_reload_witness :
    configGet (Val.dict (loadConfig (some modelXSaved)))
      ["ollama", "default_model"] = some (Val.str "x") :=
  C6_set_save_reload defaultConfig modelXSaved ["ollama", "default_model"]
    (Val.str "x") rfl rfl rfl

end ShellAI
